import Mathlib

/-!
Verification of the JASS tree-sitter grammar (WarRaft/tree-sitter-jass).

The development shallowly embeds the two source artifacts the claims are
about:

* `src/src/scanner.c` — the external scanner: `is_keyword`, the comment
  probe, the string-content probe and the identifier probe, modelled as
  total functions over a cursor represented by the remaining `List Char`
  (end of input, lookahead `0` in C, is the empty list).
* `src/grammar.js` — the expression grammar, modelled as a
  precedence-climbing expression routine over a token type, with the
  precedence levels and associativities of the canonical `PREC` table.

The generated LR parser (`parser.c`) and the tree-sitter runtime that
performs missing-node error recovery are not part of the sources; the
statement-level driver below is modelled from the spec (see the doc
comments marked "Modelled from the spec").
-/

namespace Jass

/-! ## Scanner model (src/src/scanner.c) -/

/-- The three external token kinds of `enum TokenType` in scanner.c. -/
inductive TokenType where
  | ID
  | COMMENT
  | STRING_CONTENT
deriving DecidableEq, Repr

/-- The `valid_symbols` array passed to the external scanner. -/
structure ValidSymbols where
  id : Bool
  comment : Bool
  string_content : Bool
deriving DecidableEq, Repr

/-- Outcome of one call to the external scanner: the emitted symbol
(`none` models `return false`), the characters the call advanced past,
and the remaining input. -/
structure ScanResult where
  symbol : Option TokenType
  consumed : List Char
  rest : List Char
deriving DecidableEq, Repr

/-- `is_keyword` from scanner.c: length guard, then first-character
dispatch; each `memcmp` under a length guard is whole-string equality. -/
def is_keyword (str : List Char) : Bool :=
  let len := str.length
  if len < 2 ∨ len > 11 then false else
  match str with
  | [] => false
  | c :: _ =>
    match c with
    | 'a' => (len == 3 && str == "and".data) || (len == 5 && str == "array".data)
    | 'c' => (len == 4 && str == "call".data) || (len == 8 && str == "constant".data)
    | 'e' => (len == 4 && str == "else".data) || (len == 5 && str == "endif".data) ||
             (len == 6 && str == "elseif".data) || (len == 7 && str == "extends".data) ||
             (len == 7 && str == "endloop".data) || (len == 8 && str == "exitwhen".data) ||
             (len == 10 && str == "endglobals".data) || (len == 11 && str == "endfunction".data)
    | 'f' => len == 8 && str == "function".data
    | 'g' => len == 7 && str == "globals".data
    | 'i' => len == 2 && str == "if".data
    | 'l' => (len == 4 && str == "loop".data) || (len == 5 && str == "local".data)
    | 'n' => (len == 3 && str == "not".data) || (len == 6 && str == "native".data) ||
             (len == 7 && str == "nothing".data)
    | 'o' => len == 2 && str == "or".data
    | 'r' => (len == 6 && str == "return".data) || (len == 7 && str == "returns".data)
    | 's' => len == 3 && str == "set".data
    | 't' => (len == 4 && (str == "then".data || str == "type".data)) ||
             (len == 5 && str == "takes".data)
    | _ => false

/-- The double-quote character, written via its hexadecimal escape so
that no quote glyph appears inside a character literal. -/
def quoteChar : Char := '\x22'

/-- `iswalpha(c) || c == '_'`, restricted to the ASCII alphabet the
grammar's identifier rule uses. -/
def isIdentStart (c : Char) : Bool := c.isAlpha || c == '_'

/-- `iswalnum(c) || c == '_'`, restricted to ASCII. -/
def isIdentChar (c : Char) : Bool := c.isAlphanum || c == '_'

/-- A character that does not end a single-line comment. -/
def notLineEnd (c : Char) : Bool := !(c == '\n' || c == '\r')

/-- The comment-body loop of the comment probe: advance while the
lookahead is not `\n`, `\r` or end of input. Returns the consumed
characters and the remaining input. -/
def commentBody : List Char → List Char × List Char
  | [] => ([], [])
  | c :: cs =>
    if c == '\n' || c == '\r' then ([], c :: cs)
    else
      let p := commentBody cs
      (c :: p.1, p.2)

/-- The string-content loop: stop (without consuming) at a quote or end
of input; a backslash consumes itself and, when one exists, the next
character verbatim; any other character is consumed. Returns the
consumed characters (the content span) and the remaining input. -/
def stringChars : List Char → List Char × List Char
  | [] => ([], [])
  | c :: cs =>
    if c == quoteChar then ([], c :: cs)
    else if c == '\\' then
      match cs with
      | [] => ([c], [])
      | d :: ds =>
        let p := stringChars ds
        (c :: d :: p.1, p.2)
    else
      let p := stringChars cs
      (c :: p.1, p.2)

/-- The identifier loop: consume while the lookahead is an identifier
character and fewer than 255 characters have been buffered. -/
def idChars : List Char → Nat → List Char × List Char
  | [], _ => ([], [])
  | c :: cs, len =>
    if isIdentChar c ∧ len < 255 then
      let p := idChars cs (len + 1)
      (c :: p.1, p.2)
    else ([], c :: cs)

/-- The string-content and identifier probes of
`tree_sitter_jass_external_scanner_scan`, in source order. When the
string-content symbol is valid the C loop always returns from inside the
probe, so the identifier probe is only reached when it is not valid. -/
def scanFrom2 (valid : ValidSymbols) (input : List Char) : ScanResult :=
  if valid.string_content then
    let p := stringChars input
    if p.1 = [] then ⟨none, [], input⟩
    else ⟨some TokenType.STRING_CONTENT, p.1, p.2⟩
  else if valid.id then
    match input with
    | c :: _ =>
      if isIdentStart c then
        let p := idChars input 0
        if is_keyword p.1 then ⟨none, p.1, p.2⟩
        else ⟨some TokenType.ID, p.1, p.2⟩
      else ⟨none, [], input⟩
    | [] => ⟨none, [], input⟩
  else ⟨none, [], input⟩

/-- `tree_sitter_jass_external_scanner_scan`: the comment probe advances
past a first `/` before checking for the second one; when the second
character is not `/` the call falls through to the remaining probes with
that `/` already consumed. -/
def scan (valid : ValidSymbols) (input : List Char) : ScanResult :=
  if valid.comment then
    match input with
    | c0 :: rest1 =>
      if c0 = '/' then
        match rest1 with
        | c1 :: rest2 =>
          if c1 = '/' then
            let p := commentBody rest2
            ⟨some TokenType.COMMENT, '/' :: '/' :: p.1, p.2⟩
          else
            let r := scanFrom2 valid rest1
            ⟨r.symbol, '/' :: r.consumed, r.rest⟩
        | [] =>
          let r := scanFrom2 valid []
          ⟨r.symbol, '/' :: r.consumed, r.rest⟩
      else scanFrom2 valid input
    | [] => scanFrom2 valid input
  else scanFrom2 valid input

/-- Valid-symbol set offering only the identifier token. -/
def onlyId : ValidSymbols := ⟨true, false, false⟩

/-- Valid-symbol set offering only the comment token. -/
def onlyComment : ValidSymbols := ⟨false, true, false⟩

/-- Valid-symbol set offering only the string-content token. -/
def onlyStringContent : ValidSymbols := ⟨false, false, true⟩

/-- The 27 reserved keywords recognized by `is_keyword` in scanner.c. -/
def scannerKeywords : List String :=
  ["and", "array", "call", "constant", "else", "elseif", "endfunction",
   "endglobals", "endif", "endloop", "exitwhen", "extends", "function",
   "globals", "if", "local", "loop", "native", "not", "nothing", "or",
   "return", "returns", "set", "takes", "then", "type"]

/-- The reserved set as §4.1 of the spec words it: the keywords plus the
literal constants `true`, `false`, `null`. Stated from the spec's words,
for comparison with the scanner's `is_keyword` table. -/
def specReservedWords : List String :=
  scannerKeywords ++ ["true", "false", "null"]

/-- The grammar's string rule `seq(quote, optional(_string_content),
quote)`: expect an opening quote, run the string-content probe, expect a
closing quote; the content child is absent when the probe declined. -/
def parseStringLit (cs : List Char) : Option (Option (List Char) × List Char) :=
  match cs with
  | c :: cs1 =>
    if c = quoteChar then
      let r := scan onlyStringContent cs1
      match r.symbol with
      | some TokenType.STRING_CONTENT =>
        match r.rest with
        | d :: cs2 => if d = quoteChar then some (some r.consumed, cs2) else none
        | [] => none
      | _ =>
        match cs1 with
        | d :: cs2 => if d = quoteChar then some (none, cs2) else none
        | [] => none
    else none
  | [] => none

/-! ## Numeric literal token patterns (src/grammar.js, `number` and `float`) -/

/-- Hexadecimal digit per the grammar's `[0-9a-fA-F]`. -/
def isHexDigit (c : Char) : Bool :=
  c.isDigit || ('a' ≤ c && c ≤ 'f') || ('A' ≤ c && c ≤ 'F')

/-- Binary digit per the grammar's `[01]`. -/
def isBinDigit (c : Char) : Bool := c == '0' || c == '1'

/-- Greedy `( _ digits+ )*` groups after an initial digit run. -/
def sepGroups (p : Char → Bool) : Nat → List Char → List Char
  | 0, cs => cs
  | Nat.succ fuel, cs =>
    match cs with
    | c :: cs1 =>
      if c == '_' then
        let t := cs1.takeWhile p
        if t = [] then cs
        else sepGroups p fuel (cs1.dropWhile p)
      else cs
    | [] => []

/-- The grammar's `digits (separator digits)*` pattern: at least one
digit, then underscore-separated digit groups; returns the rest of the
input on success. -/
def sepDigits (p : Char → Bool) (cs : List Char) : Option (List Char) :=
  let t := cs.takeWhile p
  if t = [] then none
  else some (sepGroups p (cs.length + 1) (cs.dropWhile p))

/-- The optional integer suffix `([lL]|[uU][lL]?)` followed by end of
token. -/
def intSuffixEnd (cs : List Char) : Bool :=
  match cs with
  | [] => true
  | [c] => c == 'l' || c == 'L' || c == 'u' || c == 'U'
  | [c, d] => (c == 'u' || c == 'U') && (d == 'l' || d == 'L')
  | _ => false

/-- The exponent pattern `[eE][+-]?[0-9]+`. -/
def exponentMatch (cs : List Char) : Option (List Char) :=
  match cs with
  | c :: cs1 =>
    if c == 'e' || c == 'E' then
      match cs1 with
      | d :: cs2 =>
        if d == '+' || d == '-' then
          if cs2.takeWhile Char.isDigit = [] then none
          else some (cs2.dropWhile Char.isDigit)
        else
          if cs1.takeWhile Char.isDigit = [] then none
          else some (cs1.dropWhile Char.isDigit)
      | [] => none
    else none
  | [] => none

/-- The optional float suffix `[fF]` followed by end of token. -/
def floatSuffixEnd (cs : List Char) : Bool :=
  match cs with
  | [] => true
  | [c] => c == 'f' || c == 'F'
  | _ => false

/-- Full-text match of the grammar's `number` token: decimal, `0x`/`0X`
hexadecimal or `0b`/`0B` binary digits with underscore separators, and
an optional integer suffix. -/
def numberToken (cs : List Char) : Bool :=
  (match sepDigits Char.isDigit cs with
   | some rest => intSuffixEnd rest
   | none => false)
  ||
  (match cs with
   | c0 :: c1 :: cs2 =>
     (c0 == '0' && (c1 == 'x' || c1 == 'X') &&
       (match sepDigits isHexDigit cs2 with
        | some rest => intSuffixEnd rest
        | none => false))
     ||
     (c0 == '0' && (c1 == 'b' || c1 == 'B') &&
       (match sepDigits isBinDigit cs2 with
        | some rest => intSuffixEnd rest
        | none => false))
   | _ => false)

/-- Full-text match of the grammar's `float` token: digits-exponent
form, decimal-point form with optional leading digits and optional
exponent, or digits with a mandatory `f`/`F` suffix. -/
def floatToken (cs : List Char) : Bool :=
  (match sepDigits Char.isDigit cs with
   | some rest =>
     (match exponentMatch rest with
      | some rest2 => floatSuffixEnd rest2
      | none => false)
   | none => false)
  ||
  (let afterInt := match sepDigits Char.isDigit cs with
                   | some rest => rest
                   | none => cs
   match afterInt with
   | c :: cs1 =>
     c == '.' &&
     (match sepDigits Char.isDigit cs1 with
      | some rest2 =>
        (match exponentMatch rest2 with
         | some rest3 => floatSuffixEnd rest3
         | none => floatSuffixEnd rest2)
      | none => false)
   | [] => false)
  ||
  (match sepDigits Char.isDigit cs with
   | some rest =>
     (match rest with
      | [c] => c == 'f' || c == 'F'
      | _ => false)
   | none => false)

/-! ## Expression grammar (src/grammar.js, `expr` and the `PREC` table) -/

/-- `PREC.ASSIGNMENT` in grammar.js. -/
def precAssignment : Nat := 1

/-- `PREC.LOGICAL_AND` in grammar.js — lower than `or` in JASS. -/
def precLogicalAnd : Nat := 12

/-- `PREC.LOGICAL_OR` in grammar.js — higher than `and` in JASS. -/
def precLogicalOr : Nat := 13

/-- `PREC.EQUALITY` in grammar.js. -/
def precEquality : Nat := 14

/-- `PREC.RELATIONAL` in grammar.js. -/
def precRelational : Nat := 15

/-- `PREC.ADDITIVE` in grammar.js. -/
def precAdditive : Nat := 16

/-- `PREC.MULTIPLICATIVE` in grammar.js. -/
def precMultiplicative : Nat := 17

/-- `PREC.UNARY` in grammar.js. -/
def precUnary : Nat := 18

/-- The `PREC` level of the two trailing `++`/`--` operators. -/
def precTrailingIncDec : Nat := 19

/-- `PREC.SUBSCRIPT` in grammar.js. -/
def precSubscript : Nat := 20

/-- Tokens of the canonical grammar, as delivered to the parser: literal
atoms and identifiers from the external scanner, the operator tokens of
`expr`, and the keyword tokens the function-statement claims need. -/
inductive Tok where
  | num (s : String)
  | flt (s : String)
  | strT (s : String)
  | ident (s : String)
  | tAssign | tAnd | tOr | tNot | tEq | tNeq | tLt | tGt | tLe | tGe
  | tPlus | tMinus | tStar | tSlash
  | tIncr | tDecr
  | tLBrack | tRBrack | tLParen | tRParen | tComma
  | kwFunction | kwTakes | kwReturns | kwNothing | kwCall | kwEndfunction
deriving DecidableEq, Repr

/-- Binary operators of `expr`. -/
inductive BinOp where
  | assign | andB | orB | eq | neq | lt | gt | le | ge | add | sub | mul | div
deriving DecidableEq, Repr

/-- Unary operators of `expr` (the leading forms). -/
inductive UnOp where
  | uIncr | uDecr | notOp | neg | pos
deriving DecidableEq, Repr

/-- Trailing operators of `expr`. -/
inductive TrailOp where
  | pIncr | pDecr
deriving DecidableEq, Repr

/-- Expression trees produced by the `expr` rule. -/
inductive Expr where
  | num (s : String)
  | flt (s : String)
  | str (s : String)
  | ident (s : String)
  | call (f : String) (args : List Expr)
  | bin (op : BinOp) (l r : Expr)
  | un (op : UnOp) (e : Expr)
  | trail (op : TrailOp) (e : Expr)
  | subscript (a i : Expr)
deriving Repr

/-- Binary-operator table: operator, `PREC` level, right-associativity.
Assignment is the only `prec.right` binary rule; all others are
`prec.left`. -/
def binOpInfo : Tok → Option (BinOp × Nat × Bool)
  | Tok.tAssign => some (BinOp.assign, precAssignment, true)
  | Tok.tAnd => some (BinOp.andB, precLogicalAnd, false)
  | Tok.tOr => some (BinOp.orB, precLogicalOr, false)
  | Tok.tEq => some (BinOp.eq, precEquality, false)
  | Tok.tNeq => some (BinOp.neq, precEquality, false)
  | Tok.tLt => some (BinOp.lt, precRelational, false)
  | Tok.tGt => some (BinOp.gt, precRelational, false)
  | Tok.tLe => some (BinOp.le, precRelational, false)
  | Tok.tGe => some (BinOp.ge, precRelational, false)
  | Tok.tPlus => some (BinOp.add, precAdditive, false)
  | Tok.tMinus => some (BinOp.sub, precAdditive, false)
  | Tok.tStar => some (BinOp.mul, precMultiplicative, false)
  | Tok.tSlash => some (BinOp.div, precMultiplicative, false)
  | _ => none

mutual

/-- Atoms of `expr`: literals, identifiers, and `function_call`. -/
def parsePrimary : Nat → List Tok → Option (Expr × List Tok)
  | 0, _ => none
  | Nat.succ fuel, toks =>
    match toks with
    | Tok.num s :: ts => some (Expr.num s, ts)
    | Tok.flt s :: ts => some (Expr.flt s, ts)
    | Tok.strT s :: ts => some (Expr.str s, ts)
    | Tok.ident f :: Tok.tLParen :: ts =>
      (match ts with
       | Tok.tRParen :: ts2 => some (Expr.call f [], ts2)
       | _ =>
         match parseArgs fuel ts with
         | some (args, Tok.tRParen :: ts2) => some (Expr.call f args, ts2)
         | _ => none)
    | Tok.ident s :: ts => some (Expr.ident s, ts)
    | _ => none

/-- `function_arguments`: `expr (, expr)*`. -/
def parseArgs : Nat → List Tok → Option (List Expr × List Tok)
  | 0, _ => none
  | Nat.succ fuel, toks =>
    match parseBin fuel 0 toks with
    | some (e, Tok.tComma :: ts) =>
      (match parseArgs fuel ts with
       | some (es, r) => some (e :: es, r)
       | none => none)
    | some (e, r) => some ([e], r)
    | none => none

/-- An atom followed by the trailing operators (`++`, `--`, subscript),
all of which bind tighter than the leading unary operators. -/
def parseTrail : Nat → List Tok → Option (Expr × List Tok)
  | 0, _ => none
  | Nat.succ fuel, toks =>
    match parsePrimary fuel toks with
    | some (e, r) => parseTrailLoop fuel e r
    | none => none

/-- Left-associative loop for trailing `++`/`--` and subscript. -/
def parseTrailLoop : Nat → Expr → List Tok → Option (Expr × List Tok)
  | 0, _, _ => none
  | Nat.succ fuel, e, toks =>
    match toks with
    | Tok.tIncr :: ts => parseTrailLoop fuel (Expr.trail TrailOp.pIncr e) ts
    | Tok.tDecr :: ts => parseTrailLoop fuel (Expr.trail TrailOp.pDecr e) ts
    | Tok.tLBrack :: ts =>
      (match parseBin fuel 0 ts with
       | some (i, Tok.tRBrack :: ts2) => parseTrailLoop fuel (Expr.subscript e i) ts2
       | _ => none)
    | _ => some (e, toks)

/-- Right-associative leading unary operators at `PREC.UNARY`. -/
def parseUnary : Nat → List Tok → Option (Expr × List Tok)
  | 0, _ => none
  | Nat.succ fuel, toks =>
    match toks with
    | Tok.tIncr :: ts =>
      (match parseUnary fuel ts with
       | some (e, r) => some (Expr.un UnOp.uIncr e, r)
       | none => none)
    | Tok.tDecr :: ts =>
      (match parseUnary fuel ts with
       | some (e, r) => some (Expr.un UnOp.uDecr e, r)
       | none => none)
    | Tok.tNot :: ts =>
      (match parseUnary fuel ts with
       | some (e, r) => some (Expr.un UnOp.notOp e, r)
       | none => none)
    | Tok.tMinus :: ts =>
      (match parseUnary fuel ts with
       | some (e, r) => some (Expr.un UnOp.neg e, r)
       | none => none)
    | Tok.tPlus :: ts =>
      (match parseUnary fuel ts with
       | some (e, r) => some (Expr.un UnOp.pos e, r)
       | none => none)
    | _ => parseTrail fuel toks

/-- Precedence climbing over the binary-operator table: a left-hand
side, then operators whose level is at least `minPrec`; a left
associative operator parses its right operand one level tighter, the
right-associative assignment at its own level. -/
def parseBin : Nat → Nat → List Tok → Option (Expr × List Tok)
  | 0, _, _ => none
  | Nat.succ fuel, minPrec, toks =>
    match parseUnary fuel toks with
    | some (lhs, r) => parseBinLoop fuel minPrec lhs r
    | none => none

/-- The operator-consuming loop of precedence climbing. -/
def parseBinLoop : Nat → Nat → Expr → List Tok → Option (Expr × List Tok)
  | 0, _, _, _ => none
  | Nat.succ fuel, minPrec, lhs, toks =>
    match toks with
    | t :: ts =>
      (match binOpInfo t with
       | some (op, p, rightA) =>
         if minPrec ≤ p then
           match parseBin fuel (if rightA then p else p + 1) ts with
           | some (rhs, r) => parseBinLoop fuel minPrec (Expr.bin op lhs rhs) r
           | none => none
         else some (lhs, toks)
       | none => some (lhs, toks))
    | [] => some (lhs, [])
end

/-- Entry point of the expression grammar: parse one `expr` from a token
sequence with enough fuel for the whole sequence. -/
def parseExprToks (toks : List Tok) : Option (Expr × List Tok) :=
  parseBin (2 * toks.length + 2) 0 toks

/-! ## Tree model and statement driver -/

/-- Tree node of §3: a kind, a text for leaf tokens, ordered children,
and the `is_missing` flag for synthesized placeholders. -/
inductive Node where
  | mk (kind : String) (text : String) (children : List Node) (missing : Bool)

/-- The kind of a node. -/
def Node.kind : Node → String
  | Node.mk k _ _ _ => k

/-- The children of a node. -/
def Node.children : Node → List Node
  | Node.mk _ _ c _ => c

/-- The `is_missing` flag of a node. -/
def Node.isMissing : Node → Bool
  | Node.mk _ _ _ m => m

/-- A diagnostic record: the token position at which a required
construct was found absent, and what was expected there. -/
structure Diag where
  pos : Nat
  expected : String
deriving DecidableEq, Repr

/-- Result of parsing one construct: its node, the remaining tokens, the
new token position, and the diagnostics it raised. -/
structure PState where
  node : Node
  rest : List Tok
  pos : Nat
  diags : List Diag

/-- Result of parsing a statement list. -/
structure PListState where
  nodes : List Node
  rest : List Tok
  pos : Nat
  diags : List Diag

mutual
/-- Render an expression as a tree node (kinds follow grammar.js rule
names). -/
def exprToNode : Expr → Node
  | Expr.num s => Node.mk "number" s [] false
  | Expr.flt s => Node.mk "float" s [] false
  | Expr.str s => Node.mk "string" s [] false
  | Expr.ident s => Node.mk "id" s [] false
  | Expr.call f args =>
    Node.mk "function_call" "" (Node.mk "id" f [] false :: exprsToNodes args) false
  | Expr.bin _ l r => Node.mk "expr" "" [exprToNode l, exprToNode r] false
  | Expr.un _ e => Node.mk "expr" "" [exprToNode e] false
  | Expr.trail _ e => Node.mk "expr" "" [exprToNode e] false
  | Expr.subscript a i => Node.mk "expr" "" [exprToNode a, exprToNode i] false

/-- Render a list of expressions as tree nodes. -/
def exprsToNodes : List Expr → List Node
  | [] => []
  | e :: es => exprToNode e :: exprsToNodes es
end

/-- Modelled from the spec: the generated LR tables (`parser.c`) and the
tree-sitter runtime that synthesizes missing nodes are not under `src/`;
`grammar.js` only declares that `function_statement` requires a final
`endfunction`. Per §4.2's recovery policy, when a required keyword token
is not found at the expected position the parser synthesizes a missing
node for it at the current position, records one diagnostic, and
continues with the enclosing construct. -/
def expectKw (t : Tok) (kname : String) (toks : List Tok) (pos : Nat) : PState :=
  match toks with
  | u :: ts =>
    if u = t then ⟨Node.mk kname "" [] false, ts, pos + 1, []⟩
    else ⟨Node.mk kname "" [] true, toks, pos, [⟨pos, kname⟩]⟩
  | [] => ⟨Node.mk kname "" [] true, [], pos, [⟨pos, kname⟩]⟩

/-- Modelled from the spec: an identifier field slot; absent identifiers
yield a missing `id` node plus a diagnostic, per §4.2. -/
def expectIdNode (toks : List Tok) (pos : Nat) : PState :=
  match toks with
  | Tok.ident s :: ts => ⟨Node.mk "id" s [] false, ts, pos + 1, []⟩
  | _ => ⟨Node.mk "id" "" [] true, toks, pos, [⟨pos, "id"⟩]⟩

/-- `parameter_list`: `parameter (, parameter)*` with
`parameter = TYPE NAME`. -/
def parseParamList : Nat → List Tok → Nat → Option (List Node × List Tok × Nat)
  | 0, _, _ => none
  | Nat.succ fuel, toks, pos =>
    match toks with
    | Tok.ident ty :: Tok.ident nm :: ts =>
      let p := Node.mk "parameter" ""
        [Node.mk "id" ty [] false, Node.mk "id" nm [] false] false
      (match ts with
       | Tok.tComma :: ts2 =>
         (match parseParamList fuel ts2 (pos + 3) with
          | some (ps, r, pos2) => some (p :: ps, r, pos2)
          | none => some ([p], ts, pos + 2))
       | _ => some ([p], ts, pos + 2))
    | _ => none

/-- The `parameters` field: `choice(nothing, parameter_list)`; per the
recovery policy a slot with neither alternative yields a missing node
plus a diagnostic. -/
def parseParams (toks : List Tok) (pos : Nat) : PState :=
  match toks with
  | Tok.kwNothing :: ts => ⟨Node.mk "nothing" "" [] false, ts, pos + 1, []⟩
  | _ =>
    match parseParamList (toks.length + 1) toks pos with
    | some (ps, r, pos2) => ⟨Node.mk "parameter_list" "" ps false, r, pos2, []⟩
    | none => ⟨Node.mk "parameters" "" [] true, toks, pos, [⟨pos, "parameters"⟩]⟩

/-- The `return_type` field: `choice(nothing, id)`. -/
def parseRetType (toks : List Tok) (pos : Nat) : PState :=
  match toks with
  | Tok.kwNothing :: ts => ⟨Node.mk "nothing" "" [] false, ts, pos + 1, []⟩
  | Tok.ident s :: ts => ⟨Node.mk "id" s [] false, ts, pos + 1, []⟩
  | _ => ⟨Node.mk "return_type" "" [] true, toks, pos, [⟨pos, "return_type"⟩]⟩

/-- `call_statement`: the keyword `call` followed by a `function_call`
expression; a malformed call yields a missing `function_call` node plus
a diagnostic. -/
def parseCallStatement (toks : List Tok) (pos : Nat) : PState :=
  match toks with
  | Tok.kwCall :: ts =>
    (match parsePrimary (ts.length + 1) ts with
     | some (Expr.call f args, r) =>
       ⟨Node.mk "call_statement" "" [exprToNode (Expr.call f args)] false,
        r, pos + 1 + (ts.length - r.length), []⟩
     | _ =>
       ⟨Node.mk "call_statement" "" [Node.mk "function_call" "" [] true] false,
        ts, pos + 1, [⟨pos + 1, "function_call"⟩]⟩)
  | _ => ⟨Node.mk "call_statement" "" [] true, toks, pos, [⟨pos, "call"⟩]⟩

mutual
/-- Modelled from the spec: the statement loop of the driver (§4.2,
§7). Statements are read until a closing `endfunction` keyword or end of
input; a token matching no alternative is skipped to the next
synchronization point with a diagnostic, never silently dropped. -/
def parseStmts : Nat → List Tok → Nat → PListState
  | 0, toks, pos => ⟨[], toks, pos, []⟩
  | Nat.succ fuel, toks, pos =>
    match toks with
    | [] => ⟨[], [], pos, []⟩
    | Tok.kwEndfunction :: _ => ⟨[], toks, pos, []⟩
    | Tok.kwFunction :: _ =>
      let s := parseFunctionStmt fuel toks pos
      let r := parseStmts fuel s.rest s.pos
      ⟨s.node :: r.nodes, r.rest, r.pos, s.diags ++ r.diags⟩
    | Tok.kwCall :: _ =>
      let s := parseCallStatement toks pos
      let r := parseStmts fuel s.rest s.pos
      ⟨s.node :: r.nodes, r.rest, r.pos, s.diags ++ r.diags⟩
    | _ :: ts =>
      let r := parseStmts fuel ts (pos + 1)
      ⟨Node.mk "ERROR" "" [] false :: r.nodes, r.rest, r.pos, ⟨pos, "statement"⟩ :: r.diags⟩

/-- Modelled from the spec: `function_statement` — the canonical variant
with a required `endfunction` terminator; an absent terminator yields a
synthesized missing node in the terminator slot plus one diagnostic at
the current position, and the construct is not abandoned (§4.2, §8). -/
def parseFunctionStmt : Nat → List Tok → Nat → PState
  | 0, toks, pos => ⟨Node.mk "function_statement" "" [] true, toks, pos, []⟩
  | Nat.succ fuel, toks, pos =>
    match toks with
    | Tok.kwFunction :: ts =>
      let nm := expectIdNode ts (pos + 1)
      let tk := expectKw Tok.kwTakes "takes" nm.rest nm.pos
      let ps := parseParams tk.rest tk.pos
      let rt := expectKw Tok.kwReturns "returns" ps.rest ps.pos
      let ty := parseRetType rt.rest rt.pos
      let body := parseStmts fuel ty.rest ty.pos
      let fin := expectKw Tok.kwEndfunction "endfunction" body.rest body.pos
      ⟨Node.mk "function_statement" ""
          (nm.node :: ps.node :: ty.node :: (body.nodes ++ [fin.node])) false,
        fin.rest, fin.pos,
        nm.diags ++ tk.diags ++ ps.diags ++ rt.diags ++ ty.diags ++
          body.diags ++ fin.diags⟩
    | _ => ⟨Node.mk "function_statement" "" [] true, toks, pos, [⟨pos, "function"⟩]⟩
end

/-- Modelled from the spec: the entry point `parse` of §6 — every input
yields exactly one root `program` node plus an ordered diagnostic
list. -/
def parseProgram (toks : List Tok) : Node × List Diag :=
  let r := parseStmts (toks.length + 1) toks 0
  (Node.mk "program" "" r.nodes false, r.diags)

/-! ## Scanner lemmas -/

/-- The comment-body loop consumes exactly the maximal run of
characters that are not line terminators. -/
theorem commentBody_eq (cs : List Char) :
    commentBody cs = (cs.takeWhile notLineEnd, cs.dropWhile notLineEnd) := by
  induction cs with
  | nil => rfl
  | cons c cs ih =>
    unfold commentBody
    by_cases h : (c == '\n' || c == '\r') = true
    · simp [h, List.takeWhile_cons, List.dropWhile_cons, notLineEnd]
    · simp [h, ih, List.takeWhile_cons, List.dropWhile_cons, notLineEnd]

/-- The string-content loop never drops characters: what it consumed
followed by what remains is the input. -/
theorem stringChars_split : ∀ cs : List Char,
    (stringChars cs).1 ++ (stringChars cs).2 = cs
  | [] => rfl
  | c :: cs => by
    unfold stringChars
    by_cases hq : (c == quoteChar) = true
    · simp [hq]
    · by_cases hb : (c == '\\') = true
      · simp only [hq, hb, if_false, if_true, Bool.false_eq_true]
        match cs with
        | [] => simp
        | d :: ds =>
          have ih := stringChars_split ds
          simp [ih]
      · have ih := stringChars_split cs
        simp [hq, hb, ih]

/-- The identifier loop never drops characters. -/
theorem idChars_split : ∀ (cs : List Char) (n : Nat),
    (idChars cs n).1 ++ (idChars cs n).2 = cs
  | [], _ => rfl
  | c :: cs, n => by
    unfold idChars
    by_cases h : isIdentChar c = true ∧ n < 255
    · have ih := idChars_split cs (n + 1)
      simp [h, ih]
    · simp [h]

/-- Below the 255-character bound, the identifier loop consumes exactly
the maximal identifier-character run. -/
theorem idChars_eq : ∀ (cs : List Char) (n : Nat),
    n + (cs.takeWhile isIdentChar).length ≤ 255 →
    idChars cs n = (cs.takeWhile isIdentChar, cs.dropWhile isIdentChar)
  | [], n, _ => rfl
  | c :: cs, n, h => by
    unfold idChars
    by_cases hc : isIdentChar c = true
    · have hlen : n + ((c :: cs).takeWhile isIdentChar).length ≤ 255 := h
      rw [List.takeWhile_cons, if_pos hc] at hlen
      have hn : n < 255 := by simp [List.length_cons] at hlen; omega
      have ih := idChars_eq cs (n + 1) (by
        rw [List.takeWhile_cons, if_pos hc] at h
        simpa [Nat.add_comm, Nat.add_left_comm] using h)
      simp [hc, hn, ih, List.takeWhile_cons, List.dropWhile_cons]
    · simp [hc, List.takeWhile_cons, List.dropWhile_cons]

/-- The string-content and identifier probes never drop characters. -/
theorem scanFrom2_split (valid : ValidSymbols) (cs : List Char) :
    (scanFrom2 valid cs).consumed ++ (scanFrom2 valid cs).rest = cs := by
  unfold scanFrom2
  by_cases hs : valid.string_content = true
  · by_cases he : (stringChars cs).1 = []
    · simp [hs, he]
    · simp [hs, he, stringChars_split]
  · by_cases hi : valid.id = true
    · match cs with
      | [] => simp [hs, hi]
      | c :: cs =>
        by_cases ha : isIdentStart c = true
        · by_cases hk : is_keyword (idChars (c :: cs) 0).1 = true
          · simp [hs, hi, ha, hk, idChars_split]
          · simp [hs, hi, ha, hk, idChars_split]
        · simp [hs, hi, ha]
    · simp [hs, hi]

/-- One call to the external scanner never drops characters: the
characters it advanced past followed by the remaining input reconstruct
the input exactly. -/
theorem scan_split (valid : ValidSymbols) (cs : List Char) :
    (scan valid cs).consumed ++ (scan valid cs).rest = cs := by
  unfold scan
  by_cases hc : valid.comment = true
  · match cs with
    | [] => simp [hc, scanFrom2_split]
    | c0 :: rest1 =>
      by_cases h0 : c0 = '/'
      · match rest1 with
        | [] => simp [hc, h0, scanFrom2_split]
        | c1 :: rest2 =>
          by_cases h1 : c1 = '/'
          · have := commentBody_eq rest2
            simp [hc, h0, h1, this, List.takeWhile_append_dropWhile]
          · have := scanFrom2_split valid (c1 :: rest2)
            simp [hc, h0, h1, this]
      · simp [hc, h0, scanFrom2_split]
  · simp [hc, scanFrom2_split]

/-- The string-content and identifier probes never emit a comment
token. -/
theorem scanFrom2_ne_comment (valid : ValidSymbols) (cs : List Char) :
    (scanFrom2 valid cs).symbol ≠ some TokenType.COMMENT := by
  unfold scanFrom2
  by_cases hs : valid.string_content = true
  · by_cases he : (stringChars cs).1 = []
    · simp [hs, he]
    · simp [hs, he]
  · by_cases hi : valid.id = true
    · match cs with
      | [] => simp [hs, hi]
      | c :: cs =>
        by_cases ha : isIdentStart c = true
        · by_cases hk : is_keyword (idChars (c :: cs) 0).1 = true
          · simp [hs, hi, ha, hk]
          · simp [hs, hi, ha, hk]
        · simp [hs, hi, ha]
    · simp [hs, hi]

/-- The string-content probe in isolation: it emits a content token
exactly when the content loop consumed at least one character. -/
theorem scan_string_only (cs : List Char) :
    scan onlyStringContent cs =
      if (stringChars cs).1 = [] then ⟨none, [], cs⟩
      else ⟨some TokenType.STRING_CONTENT, (stringChars cs).1, (stringChars cs).2⟩ := by
  unfold scan scanFrom2
  simp [onlyStringContent]

/-- The content loop stops immediately, consuming nothing, on a leading
quote. -/
theorem stringChars_quote (rest : List Char) :
    stringChars (quoteChar :: rest) = ([], quoteChar :: rest) := by
  unfold stringChars
  simp [quoteChar]

/-- The identifier probe in isolation, on identifier-start input: it
runs the identifier loop and then consults `is_keyword`. -/
theorem scan_id_only (c : Char) (cs : List Char) (ha : isIdentStart c = true) :
    scan onlyId (c :: cs) =
      if is_keyword (idChars (c :: cs) 0).1 = true
      then ⟨none, (idChars (c :: cs) 0).1, (idChars (c :: cs) 0).2⟩
      else ⟨some TokenType.ID, (idChars (c :: cs) 0).1, (idChars (c :: cs) 0).2⟩ := by
  unfold scan scanFrom2
  simp [onlyId, ha]

/-! ## Claim theorems -/

/-- C1: for every expression of the form `A and B or C` — in particular
the program text `false and true or true` — the expression grammar
produces an `and` node whose right child is an `or` node, i.e.
`A and (B or C)`, because `or` (PREC 13) binds tighter than `and`
(PREC 12). -/
theorem and_or_precedence :
    (∀ a b c : String,
      parseExprToks [Tok.ident a, Tok.tAnd, Tok.ident b, Tok.tOr, Tok.ident c] =
        some (Expr.bin BinOp.andB (Expr.ident a)
          (Expr.bin BinOp.orB (Expr.ident b) (Expr.ident c)), [])) ∧
    parseExprToks
        [Tok.ident "false", Tok.tAnd, Tok.ident "true", Tok.tOr, Tok.ident "true"] =
      some (Expr.bin BinOp.andB (Expr.ident "false")
        (Expr.bin BinOp.orB (Expr.ident "true") (Expr.ident "true")), []) :=
  ⟨fun _ _ _ => rfl, rfl⟩

/-- C2 counterexample: `true` is in the spec's reserved set, yet the
scanner's identifier probe emits it as an identifier token —
`is_keyword` contains only the 27 keywords, not the literal constants
`true`, `false`, `null`. -/
theorem reserved_true_emitted_as_identifier :
    "true" ∈ specReservedWords ∧
    scan onlyId "true".data = ⟨some TokenType.ID, "true".data, []⟩ :=
  ⟨by decide, rfl⟩

/-- C2 as amended: after scanning an identifier-shaped run whose text
equals one of the 27 keywords in the scanner's table exactly, the
identifier probe declines to emit an identifier token (the literal
constants `true`, `false`, `null` are not in the table and are emitted
as identifiers). -/
theorem scanner_keywords_declined : ∀ s ∈ scannerKeywords,
    (scan onlyId s.data).symbol = none ∧
    (scan onlyId s.data).consumed = s.data := by
  decide

/-- Witness for the amended C2 at the keyword `and`. -/
theorem scanner_keywords_declined_witness :
    (scan onlyId "and".data).symbol = none ∧
    (scan onlyId "and".data).consumed = "and".data :=
  scanner_keywords_declined "and" (by decide)

/-- C3: for the token sequence of
`function F takes nothing returns nothing \n call X() \n` with no
`endfunction`, the driver yields exactly one `function_statement` node
containing the `call_statement` child and a synthesized missing node in
the terminator slot, plus exactly one diagnostic at end of input; the
construct is not abandoned. -/
theorem missing_endfunction_recovery :
    parseProgram [Tok.kwFunction, Tok.ident "F", Tok.kwTakes, Tok.kwNothing,
        Tok.kwReturns, Tok.kwNothing, Tok.kwCall, Tok.ident "X",
        Tok.tLParen, Tok.tRParen] =
      (Node.mk "program" ""
        [Node.mk "function_statement" ""
          [Node.mk "id" "F" [] false,
           Node.mk "nothing" "" [] false,
           Node.mk "nothing" "" [] false,
           Node.mk "call_statement" ""
             [Node.mk "function_call" "" [Node.mk "id" "X" [] false] false] false,
           Node.mk "endfunction" "" [] true] false] false,
       [⟨10, "endfunction"⟩]) ∧
    ([Tok.kwFunction, Tok.ident "F", Tok.kwTakes, Tok.kwNothing, Tok.kwReturns,
        Tok.kwNothing, Tok.kwCall, Tok.ident "X", Tok.tLParen,
        Tok.tRParen] : List Tok).length = 10 :=
  ⟨rfl, rfl⟩

/-- C4: the scanner and the driver are total functions; one scanner call
always returns with the characters it advanced past a prefix of the
input (each loop iteration advances or returns), and the driver returns
a root `program` node for every token sequence. -/
theorem parse_total_program_root :
    (∀ (valid : ValidSymbols) (cs : List Char),
      (scan valid cs).consumed ++ (scan valid cs).rest = cs) ∧
    (∀ toks : List Tok, (parseProgram toks).1.kind = "program") :=
  ⟨scan_split, fun _ => rfl⟩

/-- C5: a backslash in string content always consumes itself plus the
immediately following character verbatim, whatever that character is, so
an escaped quote does not terminate the string; the JASS text
`"a\"b"` yields one content token spanning exactly the four source
characters `a`, `\`, quote, `b`. -/
theorem string_escape_pair :
    (∀ (c : Char) (rest : List Char),
      stringChars ('\\' :: c :: rest) =
        ('\\' :: c :: (stringChars rest).1, (stringChars rest).2)) ∧
    scan onlyStringContent ('a' :: '\\' :: quoteChar :: 'b' :: quoteChar :: []) =
      ⟨some TokenType.STRING_CONTENT, ['a', '\\', quoteChar, 'b'], [quoteChar]⟩ :=
  ⟨fun _ _ => rfl, rfl⟩

/-- C6: the string-content probe succeeds exactly when it consumed at
least one character before the closing quote or end of input; for the
immediately-closed empty string no content token is produced and the
string node has no content child. -/
theorem string_content_iff_consumed :
    (∀ cs : List Char,
      (scan onlyStringContent cs).symbol = some TokenType.STRING_CONTENT ↔
        (stringChars cs).1 ≠ []) ∧
    (∀ rest : List Char,
      (scan onlyStringContent (quoteChar :: rest)).symbol = none) ∧
    (∀ rest : List Char,
      parseStringLit (quoteChar :: quoteChar :: rest) = some (none, rest)) := by
  refine ⟨fun cs => ?_, fun rest => ?_, fun rest => ?_⟩
  · rw [scan_string_only]
    by_cases he : (stringChars cs).1 = [] <;> simp [he]
  · rw [scan_string_only]
    simp [stringChars_quote]
  · unfold parseStringLit
    simp [scan_string_only, stringChars_quote]

/-- C7: `functionName` lexes as a single 12-character identifier token,
not as the keyword `function` followed by `Name`; in general (below the
255-character buffer bound) the identifier probe consumes the maximal
identifier-character run before the keyword check, so a reserved word
immediately followed by identifier characters is never split. -/
theorem identifier_maximal_munch :
    scan onlyId "functionName".data =
      ⟨some TokenType.ID, "functionName".data, []⟩ ∧
    (∀ (c : Char) (cs : List Char), isIdentStart c = true →
      ((c :: cs).takeWhile isIdentChar).length ≤ 255 →
      (scan onlyId (c :: cs)).consumed = (c :: cs).takeWhile isIdentChar ∧
      ((scan onlyId (c :: cs)).symbol = some TokenType.ID ↔
        is_keyword ((c :: cs).takeWhile isIdentChar) = false)) := by
  refine ⟨rfl, fun c cs ha hlen => ?_⟩
  have he := idChars_eq (c :: cs) 0 (by simpa using hlen)
  rw [scan_id_only c cs ha, he]
  by_cases hk : is_keyword ((c :: cs).takeWhile isIdentChar) = true
  · simp [hk]
  · simp [hk]

/-- Witness for C7 at the one-character identifier `a`. -/
theorem identifier_maximal_munch_witness :
    (scan onlyId ('a' :: [])).consumed = ('a' :: []).takeWhile isIdentChar ∧
    ((scan onlyId ('a' :: [])).symbol = some TokenType.ID ↔
      is_keyword (('a' :: []).takeWhile isIdentChar) = false) :=
  identifier_maximal_munch.2 'a' [] (by decide) (by decide)

/-- C8: `1_000_000`, `0x2A` and `0b101010` each fully match the integer
`number` token and not the `float` token; `3.14`, `2.5e10` and `.5` each
fully match the `float` token and not the `number` token — each input is
one literal token of the expected kind with the full text consumed,
separators included. -/
theorem numeric_literal_tokens :
    numberToken "1_000_000".data = true ∧ numberToken "0x2A".data = true ∧
    numberToken "0b101010".data = true ∧ floatToken "3.14".data = true ∧
    floatToken "2.5e10".data = true ∧ floatToken ".5".data = true ∧
    floatToken "1_000_000".data = false ∧ floatToken "0x2A".data = false ∧
    floatToken "0b101010".data = false ∧ numberToken "3.14".data = false ∧
    numberToken "2.5e10".data = false ∧ numberToken ".5".data = false := by
  decide

/-- C9: the comment probe recognizes `//` followed by every character up
to but not including a line terminator or end of input, emitting one
comment token covering exactly that run; a `/` followed by anything
other than a second `/` (for example the `/*` of a block comment) never
yields a comment token — only single-line comments exist. -/
theorem comment_probe_single_line :
    (∀ (v : ValidSymbols) (cs : List Char), v.comment = true →
      scan v ('/' :: '/' :: cs) =
        ⟨some TokenType.COMMENT, '/' :: '/' :: cs.takeWhile notLineEnd,
         cs.dropWhile notLineEnd⟩) ∧
    (∀ (v : ValidSymbols) (c : Char) (cs : List Char), c ≠ '/' →
      (scan v ('/' :: c :: cs)).symbol ≠ some TokenType.COMMENT) := by
  constructor
  · intro v cs hv
    unfold scan
    simp [hv, commentBody_eq]
  · intro v c cs hc
    unfold scan
    by_cases hv : v.comment = true
    · simp only [hv, if_true]
      simp [hc, scanFrom2_ne_comment]
    · simp [hv, scanFrom2_ne_comment]

/-- Witness for C9: the comment `//x` at a comment-valid position. -/
theorem comment_probe_single_line_witness :
    scan onlyComment ('/' :: '/' :: ['x']) =
      ⟨some TokenType.COMMENT, '/' :: '/' :: ['x'].takeWhile notLineEnd,
       ['x'].dropWhile notLineEnd⟩ :=
  comment_probe_single_line.1 onlyComment ['x'] rfl

/-- C10: when the comment token is valid and the lookahead is `/` but
the next character is not `/`, the scan call advances past the first `/`
and falls through to the remaining probes (or returns false) without
emitting a comment token — it consumes the `/` while reporting no
comment match. -/
theorem lone_slash_swallowed :
    (∀ (v : ValidSymbols) (c : Char) (cs : List Char), v.comment = true → c ≠ '/' →
      scan v ('/' :: c :: cs) =
        ⟨(scanFrom2 v (c :: cs)).symbol, '/' :: (scanFrom2 v (c :: cs)).consumed,
         (scanFrom2 v (c :: cs)).rest⟩ ∧
      (scan v ('/' :: c :: cs)).symbol ≠ some TokenType.COMMENT) ∧
    scan onlyComment ['/', 'x'] = ⟨none, ['/'], ['x']⟩ := by
  constructor
  · intro v c cs hv hc
    constructor
    · unfold scan
      simp [hv, hc]
    · unfold scan
      simp [hv, hc, scanFrom2_ne_comment]
  · rfl

/-- Witness for C10 at the input `/x` with only the comment token
valid. -/
theorem lone_slash_swallowed_witness :
    scan onlyComment ('/' :: 'x' :: []) =
      ⟨(scanFrom2 onlyComment ('x' :: [])).symbol,
       '/' :: (scanFrom2 onlyComment ('x' :: [])).consumed,
       (scanFrom2 onlyComment ('x' :: [])).rest⟩ ∧
    (scan onlyComment ('/' :: 'x' :: [])).symbol ≠ some TokenType.COMMENT :=
  lone_slash_swallowed.1 onlyComment 'x' [] rfl (by decide)

end Jass
